import Mathlib

/-
Verification of the gograte migration tool (gilcrest/gograte) against its
natural-language specification.

This file shallowly embeds the Go code of `gograte.go`:

  * `newDDLFile`, `readDDLFiles`, `byFileNumber` (filename parsing and the
    sorted directory listing),
  * `PostgreSQLDSN.ConnectionURI` and
    `PostgreSQLDSN.KeywordValueConnectionString` (the two DSN encodings,
    including the `net/url` escaping machinery they rely on),
  * `PSQLArgs` (the psql argument assembler).

Go strings are modelled as Lean `String`s; where Go works on raw bytes
(`net/url` percent-escaping) the model works on the UTF-8 bytes of each
character, so the two views agree.  Go `int` values are modelled as `Int`,
and the 64-bit range check of `strconv.Atoi` is kept explicit.  Fallible Go
functions return an `Outcome`: `ok` for a normal return, `fail e` for a
returned non-nil `error`, and `crash` for a runtime panic (e.g. a slice
bounds violation).  File-system and config-file reads are supplied by an
`Env` record of oracles, since the claims under proof quantify over their
results rather than over a real file system.
-/

namespace Gograte

/-- Error kinds returned by `strconv.Atoi`: `strconv.ErrSyntax` (here
`invalid`) for a string that is not a well-formed decimal integer, and
`strconv.ErrRange` (here `outOfRange`) for one whose value does not fit in a
signed 64-bit Go `int`. -/
inductive AtoiErr where
  | invalid
  | outOfRange
deriving DecidableEq

/-- The Go `error` values the embedded code can return.  `numError` models
`strconv.NumError` (function name, offending string, kind); `readDirFail` and
`configFail` stand for opaque `os.ReadDir` / `NewConfigFile` failures handed
back by the environment; `noDDLFiles` models the
`fmt.Errorf("there are no DDL files to process in %s", dir)` error built in
`PSQLArgs`. -/
inductive GoError where
  | numError (fn : String) (num : String) (kind : AtoiErr)
  | readDirFail (msg : String)
  | configFail (msg : String)
  | noDDLFiles (dir : String)
deriving DecidableEq

/-- Result of running a piece of Go code: a normal value (`ok`), a returned
non-nil Go `error` (`fail`), or a runtime panic (`crash`). -/
inductive Outcome (α : Type) where
  | ok (a : α)
  | fail (e : GoError)
  | crash
deriving DecidableEq

/-- Decimal value of a digit string, most significant digit first; the
accumulator mirrors the `n = n*10 + d` loop inside the Go `strconv.ParseUint`.
Only called on characters `'0'..'9'` (`c.toNat - 48` is the digit value). -/
def digitsValue (ds : List Char) : Nat :=
  ds.foldl (fun acc c => acc * 10 + (c.toNat - 48)) 0

/-- The digit-accumulation loop of `strconv.ParseUint` (base 10): consume
decimal digits, failing on the first non-digit character. -/
def parseDigits (acc : Nat) : List Char → Option Nat
  | [] => some acc
  | c :: cs =>
      if 48 ≤ c.toNat ∧ c.toNat ≤ 57 then
        parseDigits (acc * 10 + (c.toNat - 48)) cs
      else
        none

/-- Model of `strconv.Atoi` (= `strconv.ParseInt(s, 10, 0)` on a 64-bit platform):
optional sign, then a non-empty run of decimal digits; `ErrSyntax` for an
empty string, a bare sign, or a non-digit character; `ErrRange` when the
value is outside [-2^63, 2^63 - 1]. -/
def atoi (s : String) : Except AtoiErr Int :=
  match s.data with
  | [] => Except.error AtoiErr.invalid
  | c :: rest =>
      let neg : Bool := c = '-'
      let digits : List Char := if c = '-' ∨ c = '+' then rest else c :: rest
      if digits = [] then Except.error AtoiErr.invalid
      else
        match parseDigits 0 digits with
        | none => Except.error AtoiErr.invalid
        | some n =>
            if neg then
              if n > 2 ^ 63 then Except.error AtoiErr.outOfRange
              else Except.ok (-(n : Int))
            else
              if n ≥ 2 ^ 63 then Except.error AtoiErr.outOfRange
              else Except.ok (n : Int)

/-- A Data Definition Language (DDL) file, as in the Go struct `ddlFile`:
the filename and the number extracted from its prefix (a Go `int`). -/
structure ddlFile where
  filename : String
  fileNumber : Int
deriving DecidableEq

/-- Characters strictly before the first `'-'` of the list, or `none` when
no `'-'` occurs.  This models `strings.Index(f, "-")` combined with the
slice `f[:i]`: since `'-'` is ASCII, the bytes before the first `0x2D` byte
of the UTF-8 encoding are exactly the encoding of the characters before the
first `'-'` character. -/
def beforeDash : List Char → Option (List Char)
  | [] => none
  | c :: cs => if c = '-' then some [] else (beforeDash cs).map (fun p => c :: p)

/-- Model of `newDDLFile` from gograte.go:

```
i := strings.Index(f, "-")
fileNumber := f[:i]
fn, err := strconv.Atoi(fileNumber)
```

When the filename contains no `-`, `strings.Index` returns `-1` and the Go
slice expression `f[:-1]` panics with a slice-bounds-out-of-range runtime
error — modelled as `Outcome.crash`.  Otherwise the prefix is passed to
`Atoi` and its error, if any, is returned unchanged. -/
def newDDLFile (f : String) : Outcome ddlFile :=
  match beforeDash f.data with
  | none => Outcome.crash
  | some pre =>
      let fileNumber : String := ⟨pre⟩
      match atoi fileNumber with
      | Except.error e => Outcome.fail (GoError.numError "Atoi" fileNumber e)
      | Except.ok fn => Outcome.ok ⟨f, fn⟩

/-- One `os.DirEntry` as observed by `readDDLFiles`: the entry name and
whether it is a subdirectory (`file.IsDir()`). -/
structure DirEntry where
  name : String
  isDir : Bool
deriving DecidableEq

/-- The loop body of `readDDLFiles`: walk the directory entries in order,
skip subdirectories (`if file.IsDir() { continue }`), run `newDDLFile` on
each remaining name, abort on its first error (or panic), and otherwise
collect the parsed files in listing order. -/
def parseEntries : List DirEntry → Outcome (List ddlFile)
  | [] => Outcome.ok []
  | e :: rest =>
      if e.isDir then parseEntries rest
      else
        match newDDLFile e.name with
        | Outcome.crash => Outcome.crash
        | Outcome.fail er => Outcome.fail er
        | Outcome.ok df =>
            match parseEntries rest with
            | Outcome.ok dfs => Outcome.ok (df :: dfs)
            | Outcome.fail er => Outcome.fail er
            | Outcome.crash => Outcome.crash

/-- Insert `df` into `acc` directly before the first element it is
`byFileNumber.Less` than (`bfn[i].fileNumber < bfn[j].fileNumber`), i.e.
after every element with a smaller-or-equal file number. -/
def insertSorted (df : ddlFile) : List ddlFile → List ddlFile
  | [] => [df]
  | x :: xs =>
      if df.fileNumber < x.fileNumber then df :: x :: xs
      else x :: insertSorted df xs

/-- Model of `sort.Sort(byFileNumber(ddlFiles))`: left-to-right insertion
sort under the `Less` comparator of `byFileNumber`.  the Go `sort.Sort`
guarantees a permutation of the input that is non-decreasing under `Less`;
for slices shorter than 12 elements it literally runs insertion sort, and on
input that is already non-decreasing its pdqsort performs no swaps at all
(the `partialInsertionSort` fast path), so on sorted input it returns the
slice unchanged exactly as this model does. -/
def sortByFileNumber (l : List ddlFile) : List ddlFile :=
  l.foldl (fun acc df => insertSorted df acc) []

/-- Model of `readDDLFiles` from gograte.go, with the `os.ReadDir(dir)` result
supplied as the argument: propagate a directory-read failure, run the
parsing loop over the entries, and sort the parsed files by file number.
Note that an empty directory yields `ok []` — the zero-files check lives in
`PSQLArgs`, not here. -/
def readDDLFiles (readDirResult : Outcome (List DirEntry)) : Outcome (List ddlFile) :=
  match readDirResult with
  | Outcome.crash => Outcome.crash
  | Outcome.fail e => Outcome.fail e
  | Outcome.ok files =>
      match parseEntries files with
      | Outcome.crash => Outcome.crash
      | Outcome.fail e => Outcome.fail e
      | Outcome.ok dfs => Outcome.ok (sortByFileNumber dfs)

/-- The decimal digit character for `d < 10`, as produced by the digit table
of the Go `strconv` formatting routines (callers never pass `d ≥ 10`; the
final catch-all is dead code). -/
def digitChar (d : Nat) : Char :=
  if d = 0 then '0'
  else if d = 1 then '1'
  else if d = 2 then '2'
  else if d = 3 then '3'
  else if d = 4 then '4'
  else if d = 5 then '5'
  else if d = 6 then '6'
  else if d = 7 then '7'
  else if d = 8 then '8'
  else '9'

/-- Decimal digits of `m`, most significant first, as produced by the
`formatBits` loop inside `strconv.Itoa`.  The first argument is structural
fuel (any value larger than the digit count works; `natToDigits` passes
`m + 1`, which always suffices since `m / 10 < m` for `m ≥ 10`); the
fuel-exhausted branch is dead code. -/
def natToDigitsAux : Nat → Nat → List Char
  | 0, _ => []
  | fuel + 1, m =>
      if m < 10 then [digitChar m]
      else natToDigitsAux fuel (m / 10) ++ [digitChar (m % 10)]

/-- Decimal digits of `n`, most significant first. -/
def natToDigits (n : Nat) : List Char := natToDigitsAux (n + 1) n

/-- Model of `strconv.Itoa`: decimal representation, with a leading `-` for negative
values. -/
def itoa (i : Int) : String :=
  if i < 0 then ⟨'-' :: natToDigits i.natAbs⟩ else ⟨natToDigits i.natAbs⟩

/-- The upper-case hexadecimal digit table `"0123456789ABCDEF"` used by
the `net/url` percent-escaping (`upperhex`); `b < 16` always at call sites. -/
def upperHexDigit (b : Nat) : Char :=
  if b = 0 then '0'
  else if b = 1 then '1'
  else if b = 2 then '2'
  else if b = 3 then '3'
  else if b = 4 then '4'
  else if b = 5 then '5'
  else if b = 6 then '6'
  else if b = 7 then '7'
  else if b = 8 then '8'
  else if b = 9 then '9'
  else if b = 10 then 'A'
  else if b = 11 then 'B'
  else if b = 12 then 'C'
  else if b = 13 then 'D'
  else if b = 14 then 'E'
  else 'F'

/-- The UTF-8 bytes of a character (as `Nat`s): Go strings are byte strings
and `net/url` escapes byte by byte. -/
def utf8Bytes (c : Char) : List Nat :=
  if c.toNat < 128 then [c.toNat]
  else if c.toNat < 2048 then [192 + c.toNat / 64, 128 + c.toNat % 64]
  else if c.toNat < 65536 then
    [224 + c.toNat / 4096, 128 + c.toNat / 64 % 64, 128 + c.toNat % 64]
  else
    [240 + c.toNat / 262144, 128 + c.toNat / 4096 % 64, 128 + c.toNat / 64 % 64,
      128 + c.toNat % 64]

/-- The `net/url` escaping modes exercised by `URL.String()` for the URL
built in `ConnectionURI`: path (`EscapedPath`), host, userinfo, and query
component (`Values.Encode`). -/
inductive EncodeMode where
  | encodePath
  | encodeHost
  | encodeUserPassword
  | encodeQueryComponent
deriving DecidableEq

/-- Model of the `net/url` function `shouldEscape(c, mode)`, restricted to the four modes above,
with bytes as `Nat`s.  Alphanumerics are never escaped; hosts additionally
allow the sub-delims and `: [ ] < > "`; the unreserved marks `- _ . ~` are
never escaped; the reserved bytes `$ & + , / : ; = ? @` are escaped or not
per mode; everything else is escaped. -/
def shouldEscape (b : Nat) (mode : EncodeMode) : Bool :=
  if (97 ≤ b ∧ b ≤ 122) ∨ (65 ≤ b ∧ b ≤ 90) ∨ (48 ≤ b ∧ b ≤ 57) then false
  else if mode = EncodeMode.encodeHost ∧
      (b = 33 ∨ b = 36 ∨ b = 38 ∨ b = 39 ∨ b = 40 ∨ b = 41 ∨ b = 42 ∨ b = 43 ∨
       b = 44 ∨ b = 59 ∨ b = 61 ∨ b = 58 ∨ b = 91 ∨ b = 93 ∨ b = 60 ∨ b = 62 ∨
       b = 34) then false
  else if b = 45 ∨ b = 95 ∨ b = 46 ∨ b = 126 then false
  else if b = 36 ∨ b = 38 ∨ b = 43 ∨ b = 44 ∨ b = 47 ∨ b = 58 ∨ b = 59 ∨
      b = 61 ∨ b = 63 ∨ b = 64 then
    match mode with
    | EncodeMode.encodePath => b = 63
    | EncodeMode.encodeUserPassword => b = 64 ∨ b = 47 ∨ b = 63 ∨ b = 58
    | EncodeMode.encodeQueryComponent => true
    | EncodeMode.encodeHost => true
  else true

/-- One byte of the `net/url` function `escape`: a space becomes `+` in query
components, an escaped byte becomes `%XX` with upper-case hex, and any other
byte (necessarily ASCII, since all bytes ≥ 128 are escaped) passes through. -/
def escapeByte (mode : EncodeMode) (b : Nat) : List Char :=
  if b = 32 ∧ mode = EncodeMode.encodeQueryComponent then ['+']
  else if shouldEscape b mode then ['%', upperHexDigit (b / 16), upperHexDigit (b % 16)]
  else [Char.ofNat b]

/-- Model of the `net/url` function `escape(s, mode)`: escape the UTF-8 bytes of `s` one by
one. -/
def escapeGo (mode : EncodeMode) (s : String) : String :=
  ⟨s.data.flatMap (fun c => (utf8Bytes c).flatMap (escapeByte mode))⟩

/-- The Go struct `PostgreSQLDSN`: a PostgreSQL datasource name. -/
structure PostgreSQLDSN where
  Host : String
  Port : Int
  DBName : String
  SearchPath : String
  User : String
  Password : String
deriving DecidableEq

/-- Model of `PostgreSQLDSN.ConnectionURI` from gograte.go.  The Go code builds
`url.URL{Scheme: "postgresql", User: url.User(dsn.User), Host: h,
Path: dsn.DBName}`, sets the `options` query parameter to
`-csearch_path=<SearchPath>` when `SearchPath` is non-empty, and returns
`u.String()`.  This definition inlines what `URL.String()` does for such a
URL: scheme and `://`, the escaped userinfo and `@` (the `User` field is
always non-nil, and no password is ever attached to it), the host escaped in
host mode when non-empty, a `/` before the escaped path when the path is
non-empty, does not already start with `/`, and the host is non-empty, and
finally `?` plus the output of `Values.Encode()` (`options=` followed by the
query-escaped value — with a single key, the key sorting of `Encode` is the
identity). -/
def PostgreSQLDSN.ConnectionURI (dsn : PostgreSQLDSN) : String :=
  let h := dsn.Host ++ (if dsn.Port ≠ 0 then ":" ++ itoa dsn.Port else "")
  let userinfo := escapeGo EncodeMode.encodeUserPassword dsn.User
  let hostPart := if h ≠ "" then escapeGo EncodeMode.encodeHost h else ""
  let path := escapeGo EncodeMode.encodePath dsn.DBName
  let rawQuery :=
    if dsn.SearchPath ≠ "" then
      escapeGo EncodeMode.encodeQueryComponent "options" ++ "=" ++
        escapeGo EncodeMode.encodeQueryComponent ("-csearch_path=" ++ dsn.SearchPath)
    else ""
  "postgresql:" ++ "//" ++ userinfo ++ "@" ++ hostPart ++
    (if path ≠ "" ∧ path.data.head? ≠ some '/' ∧ h ≠ "" then "/" else "") ++
    path ++
    (if rawQuery ≠ "" then "?" ++ rawQuery else "")

/-- Model of `PostgreSQLDSN.KeywordValueConnectionString` from gograte.go: the two
`switch` statements on `Password` and `SearchPath` become two two-way
conditionals, and each `fmt.Sprintf` becomes the corresponding
concatenation. -/
def PostgreSQLDSN.KeywordValueConnectionString (dsn : PostgreSQLDSN) : String :=
  let s :=
    if dsn.Password = "" then
      "host=" ++ dsn.Host ++ " port=" ++ itoa dsn.Port ++ " dbname=" ++ dsn.DBName ++
        " user=" ++ dsn.User ++ " sslmode=disable"
    else
      "host=" ++ dsn.Host ++ " port=" ++ itoa dsn.Port ++ " dbname=" ++ dsn.DBName ++
        " user=" ++ dsn.User ++ " password=" ++ dsn.Password ++ " sslmode=disable"
  if dsn.SearchPath = "" then s
  else s ++ " " ++ ("search_path=" ++ dsn.SearchPath)

/-- The keyword/value encoding exactly as the specification words it
(section 4.3): `host= port= dbname= user=`, then ` password=` if and only if
the password is non-empty, then always ` sslmode=disable`, then
` search_path=` if and only if the search path is non-empty.  Used only to
state the refinement claim against `KeywordValueConnectionString`. -/
def specKeywordValueEncoding (dsn : PostgreSQLDSN) : String :=
  "host=" ++ dsn.Host ++ " port=" ++ itoa dsn.Port ++ " dbname=" ++ dsn.DBName ++
    " user=" ++ dsn.User ++
    (if dsn.Password ≠ "" then " password=" ++ dsn.Password else "") ++
    " sslmode=disable" ++
    (if dsn.SearchPath ≠ "" then " search_path=" ++ dsn.SearchPath else "")

/-- The `database` object of the JSON config file (the anonymous inner
struct of the Go `ConfigFile`). -/
structure DatabaseSettings where
  Host : String
  Port : Int
  Name : String
  User : String
  Password : String
  SearchPath : String
deriving DecidableEq

/-- The `config` object of the JSON config file. -/
structure ConfigSettings where
  Database : DatabaseSettings
  MigrationScriptsDir : String
deriving DecidableEq

/-- The Go struct `ConfigFile`. -/
structure ConfigFile where
  Config : ConfigSettings
deriving DecidableEq

/-- Model of `newPostgreSQLDSN`: build the DSN from the configuration file.  The
field-by-field copy is kept verbatim. -/
def newPostgreSQLDSN (f : ConfigFile) : PostgreSQLDSN :=
  { Host := f.Config.Database.Host
    Port := f.Config.Database.Port
    DBName := f.Config.Database.Name
    SearchPath := f.Config.Database.SearchPath
    User := f.Config.Database.User
    Password := f.Config.Database.Password }

/-- The file-system facing collaborators of `PSQLArgs`:
`NewConfigFile path` models `os.ReadFile` + `json.Unmarshal` at a config
path, and `ReadDir dir` models `os.ReadDir`.  The claims quantify over
their results, so they are supplied as oracles. -/
structure Env where
  NewConfigFile : String → Outcome ConfigFile
  ReadDir : String → Outcome (List DirEntry)

/-- Model of `PSQLArgs` from gograte.go: load `./config/<profile>.json`, pick the
`/up` or `/down` subdirectory of `migrationScriptsDir`, read and sort the
DDL files, fail when none remain, and otherwise emit the fixed prefix
`-w -d <ConnectionURI> -c <smoke-test query>` followed by one
`-f <dir>/<filename>` pair per file in sorted order. -/
def PSQLArgs (env : Env) (up : Bool) (profile : String) : Outcome (List String) :=
  let configFilePath := "./config/" ++ profile ++ ".json"
  match env.NewConfigFile configFilePath with
  | Outcome.crash => Outcome.crash
  | Outcome.fail e => Outcome.fail e
  | Outcome.ok f =>
      let dir := f.Config.MigrationScriptsDir ++ (if up then "/up" else "/down")
      match readDDLFiles (env.ReadDir dir) with
      | Outcome.crash => Outcome.crash
      | Outcome.fail e => Outcome.fail e
      | Outcome.ok ddlFiles =>
          if ddlFiles.length = 0 then Outcome.fail (GoError.noDDLFiles dir)
          else
            Outcome.ok
              (["-w", "-d", (newPostgreSQLDSN f).ConnectionURI, "-c",
                  "select current_database(), current_user, version()"] ++
                ddlFiles.flatMap (fun file => ["-f", dir ++ "/" ++ file.filename]))

/-- Proof helper: the parsing loop of `readDDLFiles` restricted to a listing
that contains no subdirectories.  `parseEntries` factors through it after
filtering directories out (`parseEntries_eq_filter`). -/
def parseFilesOnly : List DirEntry → Outcome (List ddlFile)
  | [] => Outcome.ok []
  | e :: rest =>
      match newDDLFile e.name with
      | Outcome.crash => Outcome.crash
      | Outcome.fail er => Outcome.fail er
      | Outcome.ok df =>
          match parseFilesOnly rest with
          | Outcome.ok dfs => Outcome.ok (df :: dfs)
          | Outcome.fail er => Outcome.fail er
          | Outcome.crash => Outcome.crash

/-- Concrete configuration used by the witnesses: the shape of
`config/default.json` (migration scripts under `./scripts`). -/
def exampleConfig : ConfigFile :=
  ⟨⟨⟨"localhost", 5432, "mydb", "alice", "", "public"⟩, "./scripts"⟩⟩

/-- Concrete directory listing from the specification example, deliberately
out of order: `["003-c.sql", "001-a.sql", "002-b.sql"]`. -/
def exampleEntries : List DirEntry :=
  [⟨"003-c.sql", false⟩, ⟨"001-a.sql", false⟩, ⟨"002-b.sql", false⟩]

/-- The parse of `exampleEntries`, still in listing order. -/
def exampleFiles : List ddlFile :=
  [⟨"003-c.sql", 3⟩, ⟨"001-a.sql", 1⟩, ⟨"002-b.sql", 2⟩]

/-- Witness environment: every config path resolves to `exampleConfig` and
every directory read returns `exampleEntries`. -/
def exampleEnv : Env :=
  ⟨fun _ => Outcome.ok exampleConfig, fun _ => Outcome.ok exampleEntries⟩

/-- Witness environment whose directory listing holds a single
subdirectory, hence zero eligible files. -/
def emptyDirEnv : Env :=
  ⟨fun _ => Outcome.ok exampleConfig, fun _ => Outcome.ok [⟨"sub", true⟩]⟩

/-- Concrete listing that is already sorted and contains two entries with
the same ordering key. -/
def tieEntries : List DirEntry :=
  [⟨"001-a.sql", false⟩, ⟨"001-b.sql", false⟩, ⟨"002-c.sql", false⟩]

/-- The parse of `tieEntries`. -/
def tieFiles : List ddlFile :=
  [⟨"001-a.sql", 1⟩, ⟨"001-b.sql", 1⟩, ⟨"002-c.sql", 2⟩]

/-- Concrete listing with a subdirectory, one well-formed file and one file
whose prefix is not numeric. -/
def mixedEntries : List DirEntry :=
  [⟨"sub", true⟩, ⟨"001-a.sql", false⟩, ⟨"abc-b.sql", false⟩]

/-- Concrete DSN exercising the port-zero branch of `ConnectionURI`. -/
def exampleDSN : PostgreSQLDSN :=
  ⟨"localhost", 0, "mydb", "public", "alice", "secret"⟩

end Gograte

namespace Gograte

/-- Two strings with the same character data are equal. -/
theorem string_eq_of_data {a b : String} (h : a.data = b.data) : a = b := by
  cases a
  cases b
  exact congrArg String.mk h

/-- The data of the empty string literal. -/
theorem string_data_empty : ("" : String).data = [] := rfl

/-- A string with non-empty data is not the empty string. -/
theorem string_ne_empty {s : String} (h : s.data ≠ []) : s ≠ "" := by
  intro hs
  apply h
  rw [hs]

/-- Characterisation of `insertSorted` as a permutation of consing. -/
theorem insertSorted_perm (df : ddlFile) (l : List ddlFile) :
    List.Perm (insertSorted df l) (df :: l) := by
  induction l with
  | nil => exact List.Perm.refl _
  | cons x xs ih =>
      unfold insertSorted
      split
      · exact List.Perm.refl _
      · exact List.Perm.trans (List.Perm.cons x ih) (List.Perm.swap df x xs)

/-- Membership in `insertSorted`. -/
theorem mem_insertSorted {a df : ddlFile} {l : List ddlFile} :
    a ∈ insertSorted df l ↔ a = df ∨ a ∈ l := by
  rw [(insertSorted_perm df l).mem_iff]
  simp

/-- `insertSorted` preserves sortedness by file number. -/
theorem pairwise_insertSorted {df : ddlFile} {l : List ddlFile}
    (h : List.Pairwise (fun a b => a.fileNumber ≤ b.fileNumber) l) :
    List.Pairwise (fun a b => a.fileNumber ≤ b.fileNumber) (insertSorted df l) := by
  induction l with
  | nil => simp [insertSorted]
  | cons x xs ih =>
      rw [List.pairwise_cons] at h
      unfold insertSorted
      split
      · rename_i hlt
        rw [List.pairwise_cons]
        constructor
        · intro y hy
          rcases List.mem_cons.mp hy with rfl | hy
          · omega
          · have := h.1 y hy
            omega
        · exact List.pairwise_cons.mpr h
      · rename_i hge
        rw [List.pairwise_cons]
        constructor
        · intro y hy
          rcases mem_insertSorted.mp hy with rfl | hy
          · omega
          · exact h.1 y hy
        · exact ih h.2

/-- The insertion-sort fold is a permutation of its accumulator plus its
input. -/
theorem sortFold_perm :
    ∀ (l acc : List ddlFile),
      List.Perm (l.foldl (fun acc df => insertSorted df acc) acc) (acc ++ l) := by
  intro l
  induction l with
  | nil => intro acc; simp
  | cons x xs ih =>
      intro acc
      have h1 := ih (insertSorted x acc)
      have h2 : List.Perm (insertSorted x acc ++ xs) (acc ++ x :: xs) := by
        refine List.Perm.trans (List.Perm.append_right xs (insertSorted_perm x acc)) ?_
        exact List.perm_middle.symm
      exact List.Perm.trans h1 h2

/-- `sortByFileNumber` permutes its input. -/
theorem sortByFileNumber_perm (l : List ddlFile) :
    List.Perm (sortByFileNumber l) l := by
  have := sortFold_perm l []
  simpa [sortByFileNumber] using this

/-- The insertion-sort fold keeps the accumulator sorted. -/
theorem sortFold_pairwise :
    ∀ (l acc : List ddlFile),
      List.Pairwise (fun a b => a.fileNumber ≤ b.fileNumber) acc →
      List.Pairwise (fun a b => a.fileNumber ≤ b.fileNumber)
        (l.foldl (fun acc df => insertSorted df acc) acc) := by
  intro l
  induction l with
  | nil => intro acc h; simpa using h
  | cons x xs ih =>
      intro acc h
      exact ih (insertSorted x acc) (pairwise_insertSorted h)

/-- The output of `sortByFileNumber` is non-decreasing by file number. -/
theorem sortByFileNumber_pairwise (l : List ddlFile) :
    List.Pairwise (fun a b => a.fileNumber ≤ b.fileNumber) (sortByFileNumber l) :=
  sortFold_pairwise l [] (by simp)

/-- Inserting an element no smaller than everything in the list appends it. -/
theorem insertSorted_eq_append {df : ddlFile} {l : List ddlFile}
    (h : ∀ y ∈ l, y.fileNumber ≤ df.fileNumber) :
    insertSorted df l = l ++ [df] := by
  induction l with
  | nil => rfl
  | cons x xs ih =>
      unfold insertSorted
      have hx : x.fileNumber ≤ df.fileNumber := h x (by simp)
      rw [if_neg (by omega)]
      rw [ih (fun y hy => h y (by simp [hy]))]
      simp

/-- On input whose concatenation with the accumulator is already sorted, the
insertion-sort fold only appends. -/
theorem sortFold_eq_self :
    ∀ (l acc : List ddlFile),
      List.Pairwise (fun a b => a.fileNumber ≤ b.fileNumber) (acc ++ l) →
      l.foldl (fun acc df => insertSorted df acc) acc = acc ++ l := by
  intro l
  induction l with
  | nil => intro acc _; simp
  | cons x xs ih =>
      intro acc h
      have hle : ∀ y ∈ acc, y.fileNumber ≤ x.fileNumber := by
        intro y hy
        have := (List.pairwise_append.mp h).2.2 y hy x (by simp)
        exact this
      have hstep : insertSorted x acc = acc ++ [x] := insertSorted_eq_append hle
      have h2 : List.Pairwise (fun a b => a.fileNumber ≤ b.fileNumber) ((acc ++ [x]) ++ xs) := by
        simpa [List.append_assoc] using h
      calc (x :: xs).foldl (fun acc df => insertSorted df acc) acc
      _ = xs.foldl (fun acc df => insertSorted df acc) (insertSorted x acc) := rfl
      _ = xs.foldl (fun acc df => insertSorted df acc) (acc ++ [x]) := by rw [hstep]
      _ = (acc ++ [x]) ++ xs := ih (acc ++ [x]) h2
      _ = acc ++ x :: xs := by simp

/-- Sorting a list that is already non-decreasing by file number is the
identity. -/
theorem sortByFileNumber_eq_self {l : List ddlFile}
    (h : List.Pairwise (fun a b => a.fileNumber ≤ b.fileNumber) l) :
    sortByFileNumber l = l := by
  have := sortFold_eq_self l [] (by simpa using h)
  simpa [sortByFileNumber] using this

end Gograte

namespace Gograte

/-- The parsing loop ignores subdirectory entries: it factors through the
directory-free sub-listing. -/
theorem parseEntries_eq_filter :
    ∀ entries : List DirEntry,
      parseEntries entries = parseFilesOnly (entries.filter (fun e => !e.isDir)) := by
  intro entries
  induction entries with
  | nil => rfl
  | cons e rest ih =>
      by_cases hd : e.isDir
      · simp [parseEntries, hd, List.filter_cons, ih]
      · simp [parseEntries, hd, List.filter_cons, parseFilesOnly, ih]

/-- When every entry of the prefix parses and some later entry returns a
parse error, the loop propagates exactly that error. -/
theorem parseFilesOnly_fail_of :
    ∀ (pre : List DirEntry) (bad : DirEntry) (rest : List DirEntry) (er : GoError),
      (∀ e ∈ pre, ∃ df, newDDLFile e.name = Outcome.ok df) →
      newDDLFile bad.name = Outcome.fail er →
      parseFilesOnly (pre ++ bad :: rest) = Outcome.fail er := by
  intro pre
  induction pre with
  | nil =>
      intro bad rest er _ hbad
      simp only [List.nil_append, parseFilesOnly, hbad]
  | cons p ps ih =>
      intro bad rest er hpre hbad
      obtain ⟨df, hdf⟩ := hpre p (by simp)
      have hrec := ih bad rest er (fun e he => hpre e (by simp [he])) hbad
      simp [parseFilesOnly, hdf, hrec]

/-- When every entry of the prefix parses and some later entry panics, the
loop panics as well. -/
theorem parseFilesOnly_crash_of :
    ∀ (pre : List DirEntry) (bad : DirEntry) (rest : List DirEntry),
      (∀ e ∈ pre, ∃ df, newDDLFile e.name = Outcome.ok df) →
      newDDLFile bad.name = Outcome.crash →
      parseFilesOnly (pre ++ bad :: rest) = Outcome.crash := by
  intro pre
  induction pre with
  | nil =>
      intro bad rest _ hbad
      simp only [List.nil_append, parseFilesOnly, hbad]
  | cons p ps ih =>
      intro bad rest hpre hbad
      obtain ⟨df, hdf⟩ := hpre p (by simp)
      have hrec := ih bad rest (fun e he => hpre e (by simp [he])) hbad
      simp [parseFilesOnly, hdf, hrec]

/-- A listing consisting solely of subdirectories parses to the empty
collection (with no error). -/
theorem parseEntries_all_dirs :
    ∀ {entries : List DirEntry}, (∀ e ∈ entries, e.isDir = true) →
      parseEntries entries = Outcome.ok [] := by
  intro entries
  induction entries with
  | nil => intro _; rfl
  | cons e rest ih =>
      intro h
      simp only [parseEntries, h e (by simp), if_true]
      exact ih (fun x hx => h x (by simp [hx]))

/-- Unfolding `readDDLFiles` on a successful read and parse. -/
theorem readDDLFiles_ok {entries : List DirEntry} {files : List ddlFile}
    (h : parseEntries entries = Outcome.ok files) :
    readDDLFiles (Outcome.ok entries) = Outcome.ok (sortByFileNumber files) := by
  simp only [readDDLFiles, h]

/-- Unfolding `readDDLFiles` on a parse error. -/
theorem readDDLFiles_fail {entries : List DirEntry} {er : GoError}
    (h : parseEntries entries = Outcome.fail er) :
    readDDLFiles (Outcome.ok entries) = Outcome.fail er := by
  simp only [readDDLFiles, h]

/-- Unfolding `readDDLFiles` on a parse panic. -/
theorem readDDLFiles_crash {entries : List DirEntry}
    (h : parseEntries entries = Outcome.crash) :
    readDDLFiles (Outcome.ok entries) = Outcome.crash := by
  simp only [readDDLFiles, h]

/-- C2: the claim says that for a filename without the separator `-`, or
with a non-numeric prefix, `newDDLFile` returns a `MalformedFilename` error
and does not crash.  The code disagrees in the first case: with no `-`,
`strings.Index` yields `-1` and the slice expression `f[:-1]` panics, so
`newDDLFile "user.sql"` crashes instead of returning an error (the
non-numeric-prefix half does return the `Atoi` syntax error). -/
theorem C2_newDDLFile_no_dash_panics :
    newDDLFile "user.sql" = Outcome.crash ∧
    newDDLFile "abc-file.sql" =
      Outcome.fail (GoError.numError "Atoi" "abc" AtoiErr.invalid) := by
  constructor
  · decide
  · decide

/-- C3: on a directory listing whose file entries all parse, `readDDLFiles`
returns exactly the parsed collection (a permutation of it) sorted
non-decreasing by file number. -/
theorem C3_readDDLFiles_sorted (entries : List DirEntry) (files : List ddlFile)
    (hparse : parseEntries entries = Outcome.ok files) :
    readDDLFiles (Outcome.ok entries) = Outcome.ok (sortByFileNumber files) ∧
    List.Pairwise (fun a b => a.fileNumber ≤ b.fileNumber) (sortByFileNumber files) ∧
    List.Perm (sortByFileNumber files) files :=
  ⟨readDDLFiles_ok hparse, sortByFileNumber_pairwise files, sortByFileNumber_perm files⟩

/-- Witness for C3 at the spec example listing `003, 001, 002`. -/
theorem C3_readDDLFiles_sorted_witness :
    readDDLFiles (Outcome.ok exampleEntries) =
      Outcome.ok [⟨"001-a.sql", 1⟩, ⟨"002-b.sql", 2⟩, ⟨"003-c.sql", 3⟩] :=
  (C3_readDDLFiles_sorted exampleEntries exampleFiles (by decide)).1.trans (by decide)

/-- C9: when the parsed listing is already non-decreasing by file number —
equal keys included — the sort inside `readDDLFiles` leaves it unchanged
and the output equals the input collection. -/
theorem C9_sort_idempotent (entries : List DirEntry) (files : List ddlFile)
    (hparse : parseEntries entries = Outcome.ok files)
    (hsorted : List.Pairwise (fun a b => a.fileNumber ≤ b.fileNumber) files) :
    readDDLFiles (Outcome.ok entries) = Outcome.ok files := by
  rw [readDDLFiles_ok hparse, sortByFileNumber_eq_self hsorted]

/-- Witness for C9 on a sorted listing with two equal keys. -/
theorem C9_sort_idempotent_witness :
    readDDLFiles (Outcome.ok tieEntries) = Outcome.ok tieFiles :=
  C9_sort_idempotent tieEntries tieFiles (by decide) (by decide)

/-- C4, counterexample to the claim as stated: on a readable directory with
zero eligible files, `readDDLFiles` itself returns the empty collection
with no error — it does not return an `EmptyDirectory` error. -/
theorem C4_counterexample :
    readDDLFiles (Outcome.ok [(⟨"sub", true⟩ : DirEntry)]) =
      Outcome.ok ([] : List ddlFile) := by
  decide

/-- C4, amended: the empty-directory condition is still caller-visible, but
it is raised by `PSQLArgs` (which checks `len(ddlFiles) == 0`), not by
`readDDLFiles`: end to end, a readable directory with zero eligible files
makes `PSQLArgs` fail with the no-DDL-files error for that directory. -/
theorem C4_psqlargs_empty_dir (env : Env) (up : Bool) (profile : String)
    (f : ConfigFile) (entries : List DirEntry)
    (hcfg : env.NewConfigFile ("./config/" ++ profile ++ ".json") = Outcome.ok f)
    (hdir : env.ReadDir (f.Config.MigrationScriptsDir ++ (if up then "/up" else "/down")) =
      Outcome.ok entries)
    (hdirs : ∀ e ∈ entries, e.isDir = true) :
    PSQLArgs env up profile =
      Outcome.fail
        (GoError.noDDLFiles (f.Config.MigrationScriptsDir ++ (if up then "/up" else "/down"))) := by
  have hparse := parseEntries_all_dirs hdirs
  have hread : readDDLFiles (env.ReadDir
      (f.Config.MigrationScriptsDir ++ (if up then "/up" else "/down"))) =
      Outcome.ok ([] : List ddlFile) := by
    rw [hdir, readDDLFiles_ok hparse]
    rfl
  simp only [PSQLArgs, hcfg, hread, List.length_nil, if_true]

/-- Witness for the amended C4: a listing holding one subdirectory. -/
theorem C4_psqlargs_empty_dir_witness :
    PSQLArgs emptyDirEnv true "default" =
      Outcome.fail (GoError.noDDLFiles "./scripts/up") :=
  (C4_psqlargs_empty_dir emptyDirEnv true "default" exampleConfig [⟨"sub", true⟩]
      rfl rfl (by decide)).trans (by decide)

/-- C8: if some file entry of the listing fails to parse, `readDDLFiles`
returns no collection at all; writing the eligible (non-directory) entries
as `pre ++ bad :: rest` with every entry of `pre` parsing and `bad` the
first failing one, the outcome is exactly the failure of `bad` — the `Atoi`
error when `bad` has a non-numeric prefix, the panic when it lacks a `-`.
Subdirectory entries are skipped before any parsing. -/
theorem C8_fail_fast (entries pre : List DirEntry) (bad : DirEntry) (rest : List DirEntry)
    (hsplit : entries.filter (fun e => !e.isDir) = pre ++ bad :: rest)
    (hpre : ∀ e ∈ pre, ∃ df, newDDLFile e.name = Outcome.ok df)
    (hbad : ∀ df, newDDLFile bad.name ≠ Outcome.ok df) :
    (∀ l, readDDLFiles (Outcome.ok entries) ≠ Outcome.ok l) ∧
    (∀ er, newDDLFile bad.name = Outcome.fail er →
      readDDLFiles (Outcome.ok entries) = Outcome.fail er) ∧
    (newDDLFile bad.name = Outcome.crash →
      readDDLFiles (Outcome.ok entries) = Outcome.crash) := by
  have hpe : parseEntries entries = parseFilesOnly (pre ++ bad :: rest) := by
    rw [parseEntries_eq_filter, hsplit]
  refine ⟨?_, ?_, ?_⟩
  · intro l hok
    cases hout : newDDLFile bad.name with
    | ok df => exact hbad df hout
    | fail er =>
        have := readDDLFiles_fail (hpe.trans (parseFilesOnly_fail_of pre bad rest er hpre hout))
        rw [this] at hok
        exact Outcome.noConfusion hok
    | crash =>
        have := readDDLFiles_crash (hpe.trans (parseFilesOnly_crash_of pre bad rest hpre hout))
        rw [this] at hok
        exact Outcome.noConfusion hok
  · intro er hout
    exact readDDLFiles_fail (hpe.trans (parseFilesOnly_fail_of pre bad rest er hpre hout))
  · intro hout
    exact readDDLFiles_crash (hpe.trans (parseFilesOnly_crash_of pre bad rest hpre hout))

/-- Witness for C8: a subdirectory, one good file, then `abc-b.sql` whose
prefix is not numeric; the listing fails with exactly that `Atoi` error. -/
theorem C8_fail_fast_witness :
    readDDLFiles (Outcome.ok mixedEntries) =
      Outcome.fail (GoError.numError "Atoi" "abc" AtoiErr.invalid) :=
  (C8_fail_fast mixedEntries [⟨"001-a.sql", false⟩] ⟨"abc-b.sql", false⟩ []
      (by decide)
      (by
        intro e he
        rcases List.mem_singleton.mp he with rfl
        exact ⟨⟨"001-a.sql", 1⟩, by decide⟩)
      (by
        intro df h
        rw [(by decide :
          newDDLFile "abc-b.sql" =
            Outcome.fail (GoError.numError "Atoi" "abc" AtoiErr.invalid))] at h
        exact Outcome.noConfusion h)).2.1
    (GoError.numError "Atoi" "abc" AtoiErr.invalid) (by decide)

end Gograte

namespace Gograte

/-- The data of a string built from an explicit character list. -/
theorem string_data_mk (l : List Char) : (String.mk l).data = l := rfl

/-- String concatenation is associative. -/
theorem string_append_assoc (a b c : String) : (a ++ b) ++ c = a ++ (b ++ c) := by
  apply string_eq_of_data
  simp [String.data_append, List.append_assoc]

/-- Appending the empty string on the right is the identity. -/
theorem string_append_empty (a : String) : a ++ "" = a := by
  apply string_eq_of_data
  simp [String.data_append, string_data_empty]

/-- A string whose non-empty left part is concatenated with anything is
non-empty. -/
theorem string_append_ne_empty_left {a : String} (b : String) (h : a.data ≠ []) :
    a ++ b ≠ "" := by
  apply string_ne_empty
  rw [String.data_append]
  simp [h]

/-- A non-empty string has non-empty data. -/
theorem string_data_ne_empty {s : String} (h : s ≠ "") : s.data ≠ [] := by
  intro hnil
  exact h (string_eq_of_data (hnil.trans string_data_empty.symm))

/-- Literal merge used by the keyword/value proofs. -/
theorem kv_space_merge (r : List Char) :
    (" " : String).data ++ (("search_path=" : String).data ++ r) =
      (" search_path=" : String).data ++ r := rfl

/-- The keyword/value builder agrees with the specification wording of the
encoding (fields, conditional password, constant sslmode, conditional
search path). -/
theorem kv_eq_spec (dsn : PostgreSQLDSN) :
    dsn.KeywordValueConnectionString = specKeywordValueEncoding dsn := by
  apply string_eq_of_data
  by_cases hp : dsn.Password = "" <;> by_cases hs : dsn.SearchPath = "" <;>
    simp [PostgreSQLDSN.KeywordValueConnectionString, specKeywordValueEncoding, hp, hs,
      String.data_append, string_data_empty, List.append_assoc, kv_space_merge]

/-- C5: the keyword/value encoding is exactly
`host= port= dbname= user=`, with ` password=` present if and only if the
password is non-empty, then ` sslmode=disable`, then ` search_path=`
present if and only if the search path is non-empty; on the spec example
config (empty password, search path `public`) it is the exact expected
string. -/
theorem C5_keyword_value_encoding :
    (∀ dsn : PostgreSQLDSN,
      dsn.KeywordValueConnectionString = specKeywordValueEncoding dsn) ∧
    PostgreSQLDSN.KeywordValueConnectionString
        ⟨"localhost", 5432, "mydb", "public", "alice", ""⟩ =
      "host=localhost port=5432 dbname=mydb user=alice sslmode=disable search_path=public" ∧
    PostgreSQLDSN.KeywordValueConnectionString
        ⟨"localhost", 5432, "mydb", "public", "alice", "secret"⟩ =
      "host=localhost port=5432 dbname=mydb user=alice password=secret sslmode=disable search_path=public" :=
  ⟨kv_eq_spec, by decide, by decide⟩

/-- C10: the keyword/value encoding always carries a `port=` segment with
the formatted port — even a zero port is printed, unlike in the URI
encoding; concretely, port 0 yields ` port=0 `. -/
theorem C10_kv_always_has_port :
    (∀ dsn : PostgreSQLDSN,
      ∃ rest : String,
        dsn.KeywordValueConnectionString =
          "host=" ++ dsn.Host ++ " port=" ++ itoa dsn.Port ++ " dbname=" ++ rest) ∧
    PostgreSQLDSN.KeywordValueConnectionString
        ⟨"localhost", 0, "mydb", "public", "alice", ""⟩ =
      "host=localhost port=0 dbname=mydb user=alice sslmode=disable search_path=public" := by
  constructor
  · intro dsn
    refine ⟨dsn.DBName ++ " user=" ++ dsn.User ++
      (if dsn.Password ≠ "" then " password=" ++ dsn.Password else "") ++
      " sslmode=disable" ++
      (if dsn.SearchPath ≠ "" then " search_path=" ++ dsn.SearchPath else ""), ?_⟩
    rw [kv_eq_spec]
    apply string_eq_of_data
    simp [specKeywordValueEncoding, String.data_append, List.append_assoc]
  · decide

end Gograte

namespace Gograte

/-- Escaping distributes over concatenation (it is byte-wise). -/
theorem escapeGo_append (m : EncodeMode) (a b : String) :
    escapeGo m (a ++ b) = escapeGo m a ++ escapeGo m b := by
  apply string_eq_of_data
  simp [escapeGo, string_data_mk, String.data_append, List.flatMap_append]

/-- A character list in which every character escapes to itself is fixed by
the escaping map. -/
theorem escList_eq_self (m : EncodeMode) :
    ∀ l : List Char, (∀ c ∈ l, (utf8Bytes c).flatMap (escapeByte m) = [c]) →
      l.flatMap (fun c => (utf8Bytes c).flatMap (escapeByte m)) = l := by
  intro l
  induction l with
  | nil => intro _; rfl
  | cons c cs ih =>
      intro h
      rw [List.flatMap_cons, h c (by simp), ih (fun x hx => h x (by simp [hx]))]
      rfl

/-- A string in which every character escapes to itself is fixed by
`escapeGo`. -/
theorem escapeGo_eq_self {m : EncodeMode} {s : String}
    (h : ∀ c ∈ s.data, (utf8Bytes c).flatMap (escapeByte m) = [c]) :
    escapeGo m s = s := by
  apply string_eq_of_data
  show s.data.flatMap _ = s.data
  exact escList_eq_self m s.data h

/-- The digit table only produces decimal digit characters. -/
theorem digitChar_mem (d : Nat) :
    digitChar d ∈ ['0', '1', '2', '3', '4', '5', '6', '7', '8', '9'] := by
  unfold digitChar
  split_ifs <;> simp

/-- Every character written by the digit loop is a decimal digit. -/
theorem natToDigitsAux_mem :
    ∀ (fuel m : Nat), ∀ c ∈ natToDigitsAux fuel m,
      c ∈ ['0', '1', '2', '3', '4', '5', '6', '7', '8', '9'] := by
  intro fuel
  induction fuel with
  | zero => intro m c hc; simp [natToDigitsAux] at hc
  | succ fuel ih =>
      intro m c hc
      unfold natToDigitsAux at hc
      split at hc
      · rw [List.mem_singleton] at hc
        subst hc
        exact digitChar_mem m
      · rcases List.mem_append.mp hc with h1 | h2
        · exact ih _ c h1
        · rw [List.mem_singleton] at h2
          subst h2
          exact digitChar_mem _

/-- Every character of a formatted integer is a minus sign or a digit. -/
theorem itoa_mem (i : Int) :
    ∀ c ∈ (itoa i).data, c = '-' ∨ c ∈ ['0', '1', '2', '3', '4', '5', '6', '7', '8', '9'] := by
  intro c hc
  unfold itoa at hc
  split at hc
  · rw [string_data_mk] at hc
    rcases List.mem_cons.mp hc with rfl | h
    · exact Or.inl rfl
    · exact Or.inr (natToDigitsAux_mem _ _ c h)
  · rw [string_data_mk] at hc
    exact Or.inr (natToDigitsAux_mem _ _ c hc)

/-- Colons, minus signs and digits survive host-mode escaping untouched. -/
theorem escBytes_host_id (c : Char)
    (h : c = ':' ∨ c = '-' ∨ c ∈ ['0', '1', '2', '3', '4', '5', '6', '7', '8', '9']) :
    (utf8Bytes c).flatMap (escapeByte EncodeMode.encodeHost) = [c] := by
  rcases h with rfl | rfl | hm
  · decide
  · decide
  · fin_cases hm <;> decide

/-- A formatted integer survives host-mode escaping untouched. -/
theorem esc_host_itoa (i : Int) :
    escapeGo EncodeMode.encodeHost (itoa i) = itoa i :=
  escapeGo_eq_self (fun c hc => escBytes_host_id c (Or.inr (itoa_mem i c hc)))

/-- The colon separating host and port survives host-mode escaping. -/
theorem esc_host_colon : escapeGo EncodeMode.encodeHost ":" = ":" := by decide

/-- The literal query key survives query-mode escaping. -/
theorem esc_query_options :
    escapeGo EncodeMode.encodeQueryComponent "options" = "options" := by decide

/-- Query-escaping the literal `-csearch_path=` percent-encodes exactly the
equals sign. -/
theorem esc_query_lit :
    escapeGo EncodeMode.encodeQueryComponent "-csearch_path=" = "-csearch_path%3D" := by
  decide

/-- One escaped byte is never empty. -/
theorem escapeByte_ne_nil (m : EncodeMode) (b : Nat) : escapeByte m b ≠ [] := by
  unfold escapeByte
  split_ifs <;> simp

/-- The UTF-8 encoding of a character is never empty. -/
theorem utf8Bytes_ne_nil (c : Char) : utf8Bytes c ≠ [] := by
  unfold utf8Bytes
  split_ifs <;> simp

/-- Bytes at or above 128 are escaped in every mode. -/
theorem shouldEscape_high {b : Nat} (h : 128 ≤ b) (m : EncodeMode) :
    shouldEscape b m = true := by
  unfold shouldEscape
  rw [if_neg (by omega), if_neg (by rintro ⟨-, hb⟩; omega), if_neg (by omega),
    if_neg (by omega)]

/-- Bytes at or above 128 escape to a percent triple. -/
theorem escapeByte_high {b : Nat} (h : 128 ≤ b) (m : EncodeMode) :
    escapeByte m b = ['%', upperHexDigit (b / 16), upperHexDigit (b % 16)] := by
  unfold escapeByte
  rw [if_neg (by rintro ⟨hb, -⟩; omega), if_pos (shouldEscape_high h m)]

/-- A non-ASCII character has a leading UTF-8 byte at or above 128. -/
theorem utf8Bytes_head_high {c : Char} (h : ¬ c.toNat < 128) :
    ∃ b0 bs, utf8Bytes c = b0 :: bs ∧ 128 ≤ b0 := by
  by_cases h2 : c.toNat < 2048
  · exact ⟨_, _, by unfold utf8Bytes; rw [if_neg h, if_pos h2], by omega⟩
  · by_cases h3 : c.toNat < 65536
    · exact ⟨_, _, by unfold utf8Bytes; rw [if_neg h, if_neg h2, if_pos h3], by omega⟩
    · exact ⟨_, _, by unfold utf8Bytes; rw [if_neg h, if_neg h2, if_neg h3], by omega⟩

/-- The escape of a character other than `/` never starts with `/`. -/
theorem escBytes_head_ne_slash (m : EncodeMode) {c : Char} (hc : c ≠ '/') :
    ∃ a t, (utf8Bytes c).flatMap (escapeByte m) = a :: t ∧ a ≠ '/' := by
  by_cases hascii : c.toNat < 128
  · have hu : utf8Bytes c = [c.toNat] := by unfold utf8Bytes; rw [if_pos hascii]
    rw [hu, List.flatMap_cons, List.flatMap_nil, List.append_nil]
    unfold escapeByte
    split_ifs with h1 h2
    · exact ⟨'+', [], rfl, by decide⟩
    · exact ⟨'%', _, rfl, by decide⟩
    · refine ⟨Char.ofNat c.toNat, [], rfl, ?_⟩
      rw [Char.ofNat_toNat]
      exact hc
  · obtain ⟨b0, bs, hu, hb0⟩ := utf8Bytes_head_high hascii
    rw [hu, List.flatMap_cons, escapeByte_high hb0 m]
    exact ⟨'%', _, rfl, by decide⟩

/-- Escaping a string whose first character is not `/` yields a string
whose first character is not `/`. -/
theorem escapeGo_head_ne_slash (m : EncodeMode) {s : String} {c : Char}
    (hhead : s.data.head? = some c) (hc : c ≠ '/') :
    (escapeGo m s).data.head? ≠ some '/' := by
  obtain ⟨cs, hcs⟩ : ∃ cs, s.data = c :: cs := by
    cases hd : s.data with
    | nil => rw [hd] at hhead; exact absurd hhead (by simp)
    | cons c0 cs0 =>
        rw [hd] at hhead
        simp at hhead
        exact ⟨cs0, by rw [hhead]⟩
  obtain ⟨a, t, hat, ha⟩ := escBytes_head_ne_slash m hc
  have hdata : (escapeGo m s).data =
      a :: (t ++ cs.flatMap (fun x => (utf8Bytes x).flatMap (escapeByte m))) := by
    show s.data.flatMap _ = _
    rw [hcs, List.flatMap_cons, hat]
    rfl
  rw [hdata]
  simp [ha]

/-- Escaping a string with non-empty data yields non-empty data. -/
theorem escapeGo_data_ne_nil (m : EncodeMode) {s : String} (h : s.data ≠ []) :
    (escapeGo m s).data ≠ [] := by
  cases hd : s.data with
  | nil => exact absurd hd h
  | cons c cs =>
      show s.data.flatMap _ ≠ []
      rw [hd, List.flatMap_cons]
      intro hnil
      rcases List.append_eq_nil.mp hnil with ⟨h1, -⟩
      obtain ⟨b0, bs, hu⟩ : ∃ b0 bs, utf8Bytes c = b0 :: bs := by
        cases hub : utf8Bytes c with
        | nil => exact absurd hub (utf8Bytes_ne_nil c)
        | cons b0 bs => exact ⟨b0, bs, rfl⟩
      rw [hu, List.flatMap_cons] at h1
      rcases List.append_eq_nil.mp h1 with ⟨h2, -⟩
      exact escapeByte_ne_nil m b0 h2

/-- Literal merge: the scheme designator and the `//` marker. -/
theorem uri_scheme_merge (r : List Char) :
    ("postgresql:" : String).data ++ (("//" : String).data ++ r) =
      ("postgresql://" : String).data ++ r := rfl

/-- Literal merge: the query marker, key, equals sign and encoded value
prefix. -/
theorem uri_query_merge (r : List Char) :
    ("?" : String).data ++ (("options" : String).data ++ (("=" : String).data ++
        (("-csearch_path%3D" : String).data ++ r))) =
      ("?options=-csearch_path%3D" : String).data ++ r := rfl

/-- The encoded query string is never empty. -/
theorem options_query_ne_empty (x : String) : ("options=" ++ x : String) ≠ "" :=
  string_append_ne_empty_left x (by decide)

end Gograte

namespace Gograte

/-- C6: for a DSN with non-empty host and database name (as the data model
guarantees) whose database name does not begin with `/`, the URI encoding is
exactly `postgresql://<user>@<host>[:<port>]/<name>[?options=-csearch_path%3D<searchPath>]`
with each field percent-encoded in its positional mode: the `:<port>`
segment appears if and only if the port is non-zero, the `options`
parameter (its `=` encoded as `%3D`) appears if and only if the search path
is non-empty, and the user-info never depends on the password. -/
theorem C6_connection_uri (dsn : PostgreSQLDSN)
    (hhost : dsn.Host ≠ "") (hdb : dsn.DBName ≠ "")
    (hdbhead : dsn.DBName.data.head? ≠ some '/') :
    dsn.ConnectionURI =
      "postgresql://" ++ escapeGo EncodeMode.encodeUserPassword dsn.User ++ "@" ++
        escapeGo EncodeMode.encodeHost dsn.Host ++
        (if dsn.Port = 0 then "" else ":" ++ itoa dsn.Port) ++ "/" ++
        escapeGo EncodeMode.encodePath dsn.DBName ++
        (if dsn.SearchPath = "" then ""
         else "?options=-csearch_path%3D" ++
           escapeGo EncodeMode.encodeQueryComponent dsn.SearchPath) ∧
    (∀ pw : String,
      PostgreSQLDSN.ConnectionURI
          ⟨dsn.Host, dsn.Port, dsn.DBName, dsn.SearchPath, dsn.User, pw⟩ =
        dsn.ConnectionURI) := by
  have hdata := string_data_ne_empty hdb
  obtain ⟨c, cs, hcs⟩ : ∃ c cs, dsn.DBName.data = c :: cs := by
    cases hd : dsn.DBName.data with
    | nil => exact absurd hd hdata
    | cons c cs => exact ⟨c, cs, rfl⟩
  have hc : c ≠ '/' := fun hcq => hdbhead (by rw [hcs, hcq]; rfl)
  have hpathhead :=
    escapeGo_head_ne_slash EncodeMode.encodePath (by rw [hcs]; rfl) hc
  have hpathne : escapeGo EncodeMode.encodePath dsn.DBName ≠ "" :=
    string_ne_empty (escapeGo_data_ne_nil _ hdata)
  have hHne : ∀ x : String, dsn.Host ++ x ≠ "" :=
    fun x => string_append_ne_empty_left x (string_data_ne_empty hhost)
  constructor
  · by_cases hp : dsn.Port = 0 <;> by_cases hs : dsn.SearchPath = "" <;>
      · apply string_eq_of_data
        simp [PostgreSQLDSN.ConnectionURI, hp, hs, hhost, hpathne, hpathhead, hHne,
          string_append_empty, escapeGo_append, esc_host_itoa, esc_host_colon,
          esc_query_options, esc_query_lit, options_query_ne_empty,
          String.data_append, string_data_mk, string_data_empty,
          List.append_assoc, uri_scheme_merge, uri_query_merge]
  · intro pw
    rfl

end Gograte

namespace Gograte

/-- Witness for C6 at `exampleDSN` (port 0, search path `public`): the URI
has no port segment and carries the encoded search path. -/
theorem C6_connection_uri_witness :
    PostgreSQLDSN.ConnectionURI exampleDSN =
      "postgresql://alice@localhost/mydb?options=-csearch_path%3Dpublic" :=
  ((C6_connection_uri exampleDSN (by decide) (by decide) (by decide)).1).trans (by decide)

/-- A dash-free prefix is what `beforeDash` returns when a dash follows. -/
theorem beforeDash_append (ds rest : List Char) (h : ∀ c ∈ ds, c ≠ '-') :
    beforeDash (ds ++ '-' :: rest) = some ds := by
  induction ds with
  | nil => simp [beforeDash]
  | cons c cs ih =>
      have hc := h c (by simp)
      have hrest := ih (fun x hx => h x (by simp [hx]))
      simp [beforeDash, hc, hrest]

/-- On an all-digit input the digit loop returns the accumulated value. -/
theorem parseDigits_digits :
    ∀ (ds : List Char) (acc : Nat), (∀ c ∈ ds, 48 ≤ c.toNat ∧ c.toNat ≤ 57) →
      parseDigits acc ds =
        some (ds.foldl (fun a c => a * 10 + (c.toNat - 48)) acc) := by
  intro ds
  induction ds with
  | nil => intro acc _; rfl
  | cons c cs ih =>
      intro acc h
      have hc := h c (by simp)
      simp only [parseDigits, if_pos hc, List.foldl_cons]
      exact ih _ (fun x hx => h x (by simp [hx]))

/-- On a non-empty all-digit string below 2^63 the `Atoi` model returns its
decimal value. -/
theorem atoi_digits (ds : List Char) (hne : ds ≠ [])
    (hdig : ∀ c ∈ ds, 48 ≤ c.toNat ∧ c.toNat ≤ 57)
    (hrange : digitsValue ds < 2 ^ 63) :
    atoi ⟨ds⟩ = Except.ok (digitsValue ds : Int) := by
  cases ds with
  | nil => exact absurd rfl hne
  | cons c cs =>
      have hc := hdig c (by simp)
      have h45 : ('-' : Char).toNat = 45 := rfl
      have h43 : ('+' : Char).toNat = 43 := rfl
      have hcd : ¬(c = '-' ∨ c = '+') := by
        rintro (rfl | rfl)
        · omega
        · omega
      have hneg : ¬ c = '-' := fun hq => hcd (Or.inl hq)
      have hplus : ¬ c = '+' := fun hq => hcd (Or.inr hq)
      have hrange2 : ¬ 2 ^ 63 ≤ (c :: cs).foldl (fun a x => a * 10 + (x.toNat - 48)) 0 :=
        Nat.not_le.mpr hrange
      simp [atoi, string_data_mk, hneg, hplus, parseDigits_digits (c :: cs) 0 hdig,
        digitsValue, hrange2]
      simpa [digitsValue] using hrange

end Gograte

namespace Gograte

/-- C7, counterexample to the claim as stated: the filename
`9999999999999999999-x.sql` has a base-10 integer prefix before its first
`-`, but its value exceeds the signed 64-bit range, so `Atoi` reports
`ErrRange` and `newDDLFile` fails instead of succeeding. -/
theorem C7_counterexample :
    newDDLFile "9999999999999999999-x.sql" =
      Outcome.fail (GoError.numError "Atoi" "9999999999999999999" AtoiErr.outOfRange) := by
  decide

/-- C7, amended: for every filename whose prefix before the first `-` is a
non-empty digit string with value below 2^63 (it fits the Go `int`), the
parser succeeds, the ordering key is exactly that decimal value, and the
full original filename is preserved in the result.  (A negative prefix
cannot occur: its minus sign would itself be the first `-`.) -/
theorem C7_numeric_name_parses (ds rest : List Char)
    (hne : ds ≠ [])
    (hdig : ∀ c ∈ ds, 48 ≤ c.toNat ∧ c.toNat ≤ 57)
    (hrange : digitsValue ds < 2 ^ 63) :
    newDDLFile ⟨ds ++ '-' :: rest⟩ =
      Outcome.ok ⟨⟨ds ++ '-' :: rest⟩, (digitsValue ds : Int)⟩ := by
  have h45 : ('-' : Char).toNat = 45 := rfl
  have hnd : ∀ c ∈ ds, c ≠ '-' := by
    intro c hc hq
    have := hdig c hc
    rw [hq, h45] at this
    omega
  simp only [newDDLFile, string_data_mk, beforeDash_append ds rest hnd,
    atoi_digits ds hne hdig hrange]

/-- Witness for the amended C7 at `001-create_table.sql`. -/
theorem C7_numeric_name_parses_witness :
    newDDLFile ⟨['0', '0', '1'] ++ '-' :: ("create_table.sql" : String).data⟩ =
      Outcome.ok ⟨"001-create_table.sql", 1⟩ :=
  (C7_numeric_name_parses ['0', '0', '1'] ("create_table.sql" : String).data
      (by decide) (by decide) (by decide)).trans (by decide)

/-- C1: whenever the configuration loads, the migration directory reads,
every entry parses and at least one file remains, `PSQLArgs` returns the
fixed five-element prefix `-w`, `-d`, the URI connection string, `-c`, the
smoke-test query, followed by one `-f <dir>/<filename>` pair per migration
file; the emitted files are a permutation of the parsed ones ordered
non-decreasing by ordering key, and strictly increasing whenever the keys
are pairwise distinct. -/
theorem C1_psqlargs_shape (env : Env) (up : Bool) (profile : String)
    (f : ConfigFile) (entries : List DirEntry) (files : List ddlFile)
    (hcfg : env.NewConfigFile ("./config/" ++ profile ++ ".json") = Outcome.ok f)
    (hdir : env.ReadDir (f.Config.MigrationScriptsDir ++ (if up then "/up" else "/down")) =
      Outcome.ok entries)
    (hparse : parseEntries entries = Outcome.ok files)
    (hne : files ≠ []) :
    ∃ sorted : List ddlFile,
      PSQLArgs env up profile =
        Outcome.ok (["-w", "-d", (newPostgreSQLDSN f).ConnectionURI, "-c",
            "select current_database(), current_user, version()"] ++
          sorted.flatMap (fun file =>
            ["-f", f.Config.MigrationScriptsDir ++ (if up then "/up" else "/down") ++ "/" ++
              file.filename])) ∧
      List.Perm sorted files ∧
      List.Pairwise (fun a b => a.fileNumber ≤ b.fileNumber) sorted ∧
      (List.Pairwise (fun a b => a.fileNumber ≠ b.fileNumber) files →
        List.Pairwise (fun a b => a.fileNumber < b.fileNumber) sorted) := by
  refine ⟨sortByFileNumber files, ?_, sortByFileNumber_perm files,
    sortByFileNumber_pairwise files, ?_⟩
  · have hread := readDDLFiles_ok hparse
    have hlen : ¬ (sortByFileNumber files).length = 0 := by
      rw [(sortByFileNumber_perm files).length_eq]
      simpa using hne
    simp [PSQLArgs, hcfg, hdir, hread, hlen]
  · intro hdist
    have hdist2 : List.Pairwise (fun a b => a.fileNumber ≠ b.fileNumber)
        (sortByFileNumber files) :=
      ((sortByFileNumber_perm files).pairwise_iff
        (fun hxy heq => hxy heq.symm)).mpr hdist
    exact ((sortByFileNumber_pairwise files).and hdist2).imp (fun h => by omega)

/-- Witness for C1 on the spec example: files listed as 003, 001, 002. -/
theorem C1_psqlargs_shape_witness :
    ∃ sorted : List ddlFile,
      PSQLArgs exampleEnv true "default" =
        Outcome.ok (["-w", "-d", (newPostgreSQLDSN exampleConfig).ConnectionURI, "-c",
            "select current_database(), current_user, version()"] ++
          sorted.flatMap (fun file =>
            ["-f", exampleConfig.Config.MigrationScriptsDir ++
              (if true then "/up" else "/down") ++ "/" ++ file.filename])) ∧
      List.Perm sorted exampleFiles ∧
      List.Pairwise (fun a b => a.fileNumber ≤ b.fileNumber) sorted ∧
      (List.Pairwise (fun a b => a.fileNumber ≠ b.fileNumber) exampleFiles →
        List.Pairwise (fun a b => a.fileNumber < b.fileNumber) sorted) :=
  C1_psqlargs_shape exampleEnv true "default" exampleConfig exampleEntries exampleFiles
    rfl rfl (by decide) (by decide)

end Gograte
